import Mathlib

/-!
Verification development for the relay-bot repository (two Python sources:
`relay_bot.py` and `bot_command_extractor.py`).

The definitions below are a shallow embedding of the code:

* `parse_bot_response_for_commands` embeds the extractor's parser
  (`bot_command_extractor.py`, lines 156-200).  The three Python regexes are
  modelled character by character, including the backtracking behaviour of
  `re.findall` / `re.search` under the flags the source uses
  (`MULTILINE | DOTALL` for pattern 1, none for pattern 2,
  `IGNORECASE | MULTILINE` for pattern 3).
* `save_extracted_commands`, `create_bot_instance` and the menu query embed
  the sqlite layer (`init_database` schema plus the statements actually
  executed).  The `bot_status` table of the schema has an AUTOINCREMENT
  primary key and no UNIQUE constraint on `bot_id`, so the source's
  `INSERT OR REPLACE` never finds a conflicting row and behaves as a plain
  INSERT; the model reflects that.
* `relay_command` / `masterReply` embed the relay bot (`relay_bot.py`,
  lines 31-43): a relay sends the command to the master and registers a
  fresh telethon `NewMessage(from_users=MASTER_USERNAME)` handler which
  forwards the next master message to its own user and then removes itself.
  Telethon dispatches an incoming event to every handler registered at that
  moment, so a master message is delivered to all pending requesters.
  The source never reads or writes any quota column and has no timeout, so
  the model has no transition that does either.
-/

/-- Python `\w` on the ASCII inputs that occur here: letters, digits, `_`. -/
def isWordChar (c : Char) : Bool := c.isAlphanum || c == '_'

/-- Python whitespace: the exact character set matched by the `re` module's
`\s` on `str` patterns, which coincides with `str.isspace()` (and hence
with what `str.strip()` removes): tab through carriage return (0x9-0xd),
the file/group/record/unit separators (0x1c-0x1f), space, next line (0x85),
no-break space (0xa0), ogham space mark (0x1680), the en-quad..hair-space
range (0x2000-0x200a), line/paragraph separator (0x2028, 0x2029), narrow
no-break space (0x202f), medium mathematical space (0x205f) and ideographic
space (0x3000). -/
def isSpaceChar (c : Char) : Bool :=
  c.toNat == 0x20 || (0x9 ≤ c.toNat && c.toNat ≤ 0xd) ||
    (0x1c ≤ c.toNat && c.toNat ≤ 0x1f) || c.toNat == 0x85 || c.toNat == 0xa0 ||
    c.toNat == 0x1680 || (0x2000 ≤ c.toNat && c.toNat ≤ 0x200a) ||
    c.toNat == 0x2028 || c.toNat == 0x2029 || c.toNat == 0x202f ||
    c.toNat == 0x205f || c.toNat == 0x3000

/-- Leading-whitespace removal, first half of Python `str.strip()`. -/
def stripLeft (l : List Char) : List Char := l.dropWhile isSpaceChar

/-- Trailing-whitespace removal, second half of Python `str.strip()`. -/
def stripRight (l : List Char) : List Char := (l.reverse.dropWhile isSpaceChar).reverse

/-- Python `str.strip()`. -/
def pyStrip (s : String) : String := ⟨stripRight (stripLeft s.data)⟩

/-!
Pattern 1 of the source, `/(\w+)\s+(.+?)(?=\n/|\n\n|$)` with
`re.MULTILINE | re.DOTALL`.  Under MULTILINE, `$` matches before every
newline as well as at the end of the input; the lookahead alternatives
`\n/` and `\n\n` are therefore subsumed by `$`, and the lazy `(.+?)` stops
at the first position (after at least one character) that is the end of the
input or sits before a newline.  `\w+` and `\s+` take their maximal runs:
shrinking them only exposes a character of the same class, which cannot
satisfy the next regex element, with one exception — when the input ends
directly after the whitespace run, the engine gives the last whitespace
character back to `(.+?)`, which needs a run of length at least 2.
-/

/-- Attempt of pattern 1 anchored at the head of `cs`; on success returns
the two capture groups and the unconsumed rest (the lookahead consumes
nothing). -/
def match1At (cs : List Char) : Option (String × String × List Char) :=
  match cs with
  | [] => none
  | c :: rest =>
    if c = '/' then
      let w := rest.takeWhile isWordChar
      let r1 := rest.dropWhile isWordChar
      let sp := r1.takeWhile isSpaceChar
      let r2 := r1.dropWhile isSpaceChar
      if w.isEmpty then none
      else if sp.isEmpty then none
      else
        match r2 with
        | [] =>
          if 2 ≤ sp.length then some (⟨w⟩, ⟨[sp.getLastD ' ']⟩, ([] : List Char))
          else none
        | e :: r3 =>
          some (⟨w⟩, ⟨(e :: r3).takeWhile (fun c => c != '\n')⟩,
            (e :: r3).dropWhile (fun c => c != '\n'))
    else none

/-- Scan of `re.findall` for pattern 1: try every position left to right and
resume after the end of each match.  Every step consumes at least one
character, so fuel equal to the input length suffices. -/
def findall1Fuel (fuel : Nat) (cs : List Char) : List (String × String) :=
  match fuel, cs with
  | 0, _ => []
  | _, [] => []
  | fuel + 1, c :: cs =>
    match match1At (c :: cs) with
    | some (cmd, desc, rest) => (cmd, desc) :: findall1Fuel fuel rest
    | none => findall1Fuel fuel cs

/-- Model of `re.findall(pattern1, text, re.MULTILINE | re.DOTALL)`. -/
def findall1 (s : String) : List (String × String) := findall1Fuel s.data.length s.data

/-!
Pattern 2 of the source, `/(\w+)\s+\{([^}]+)\}` with no flags.  `\w+`, `\s+`
and `[^}]+` take their maximal runs: shrinking any of them only exposes a
character that cannot match the following literal.
-/

/-- Attempt of pattern 2 anchored at the head of `cs`. -/
def match2At (cs : List Char) : Option (String × String × List Char) :=
  match cs with
  | [] => none
  | c :: rest =>
    if c = '/' then
      let w := rest.takeWhile isWordChar
      let r1 := rest.dropWhile isWordChar
      let sp := r1.takeWhile isSpaceChar
      let r2 := r1.dropWhile isSpaceChar
      if w.isEmpty then none
      else if sp.isEmpty then none
      else
        match r2 with
        | [] => none
        | e :: r3 =>
          if e = '{' then
            let q := r3.takeWhile (fun c => c != '}')
            let r4 := r3.dropWhile (fun c => c != '}')
            if q.isEmpty then none
            else
              match r4 with
              | [] => none
              | e2 :: r5 => if e2 = '}' then some (⟨w⟩, ⟨q⟩, r5) else none
          else none
    else none

/-- Scan of `re.findall` for pattern 2. -/
def findall2Fuel (fuel : Nat) (cs : List Char) : List (String × String) :=
  match fuel, cs with
  | 0, _ => []
  | _, [] => []
  | fuel + 1, c :: cs =>
    match match2At (c :: cs) with
    | some (cmd, par, rest) => (cmd, par) :: findall2Fuel fuel rest
    | none => findall2Fuel fuel cs

/-- Model of `re.findall(pattern2, text)`. -/
def findall2 (s : String) : List (String × String) := findall2Fuel s.data.length s.data

/-!
Pattern 3 of the source,
`(\w+(?:\s+\w+)*)\s*\n?ID\s*:\s*(\d+)\s*\n?EXPIRED\s*:\s*([^\n]+)\s*\n?STATUS\s*:\s*(\w+)`
with `re.IGNORECASE | re.MULTILINE`, used through `re.search`.  The model is
a backtracking matcher in continuation-passing style that follows the
engine's preference order (greedy quantifiers longest first, leftmost start
position).  Two simplifications are justified by the grammar: in
`\s*\n?LITERAL` and `\s*:` every shortened whitespace run leaves the literal
facing another whitespace character (or reaches the same position through
`\n?`), so the maximal run is the only one that matters; this does not hold
for the `\s*` directly before the `[^\n]+` group, which is therefore
backtracked explicitly. -/

/-- Case-insensitive literal match (the regex is compiled with IGNORECASE);
returns the rest on success. -/
def matchLitCI : List Char → List Char → Option (List Char)
  | [], cs => some cs
  | _ :: _, [] => none
  | l :: ls, c :: cs => if l.toLower = c.toLower then matchLitCI ls cs else none

/-- Maximal whitespace skip, for the `\s*` positions where backtracking
cannot change the outcome. -/
def skipWs (cs : List Char) : List Char := cs.dropWhile isSpaceChar

/-- Greedy backtracking over the nonempty prefixes of a run, longest first.
`rrun` is the reversed remaining run; the continuation receives the chosen
prefix (in order) and the rest. -/
def tryPrefRev {α : Type} (rrun rest : List Char)
    (k : List Char → List Char → Option α) : Option α :=
  match rrun with
  | [] => none
  | c :: rr =>
    match k rrun.reverse rest with
    | some a => some a
    | none => tryPrefRev rr (c :: rest) k

/-- Greedy backtracking over the prefixes of a whitespace run, longest
first, including the empty prefix (for the one `\s*` where shrinking
matters). -/
def tryWsRev {α : Type} (rrun rest : List Char) (k : List Char → Option α) : Option α :=
  match rrun with
  | [] => k rest
  | c :: rr =>
    match k rest with
    | some a => some a
    | none => tryWsRev rr (c :: rest) k

/-- Greedy `(?:\s+\w+)*`: try one more iteration first (with the iteration's
own `\w+` backtracking), then fall back to stopping.  Each iteration
consumes at least two characters, so fuel equal to the input length
suffices. -/
def tryStar {α : Type} (fuel : Nat) (consumed cs : List Char)
    (k : List Char → List Char → Option α) : Option α :=
  match fuel with
  | 0 => k consumed cs
  | fuel + 1 =>
    let sp := cs.takeWhile isSpaceChar
    let r := cs.dropWhile isSpaceChar
    let one : Option α :=
      if sp.isEmpty then none
      else
        tryPrefRev (r.takeWhile isWordChar).reverse (r.dropWhile isWordChar)
          (fun w rest => tryStar fuel (consumed ++ sp ++ w) rest k)
    match one with
    | some a => some a
    | none => k consumed cs

/-- Expect `\s*:` with a maximal whitespace skip (shrinking only exposes
whitespace, which is not a colon); returns the rest directly after the
colon. -/
def expectColon (cs : List Char) : Option (List Char) :=
  match skipWs cs with
  | [] => none
  | e :: r => if e = ':' then some r else none

/-- Attempt of pattern 3 anchored exactly at the head of `cs`, in the
engine's preference order; returns the four capture groups. -/
def matchP3From (cs : List Char) : Option (List Char × List Char × List Char × List Char) :=
  tryPrefRev (cs.takeWhile isWordChar).reverse (cs.dropWhile isWordChar) (fun w1 r1 =>
    tryStar r1.length w1 r1 (fun g1 r2 =>
      match matchLitCI ['I', 'D'] (skipWs r2) with
      | none => none
      | some r3 =>
        match expectColon r3 with
        | none => none
        | some r4 =>
          let r4s := skipWs r4
          let digits := r4s.takeWhile Char.isDigit
          if digits.isEmpty then none
          else
            match matchLitCI ['E', 'X', 'P', 'I', 'R', 'E', 'D']
                (skipWs (r4s.dropWhile Char.isDigit)) with
            | none => none
            | some r5 =>
              match expectColon r5 with
              | none => none
              | some r6 =>
                tryWsRev (r6.takeWhile isSpaceChar).reverse (r6.dropWhile isSpaceChar)
                  (fun r7 =>
                    tryPrefRev (r7.takeWhile (fun c => c != '\n')).reverse
                      (r7.dropWhile (fun c => c != '\n')) (fun g3 r8 =>
                        match matchLitCI ['S', 'T', 'A', 'T', 'U', 'S'] (skipWs r8) with
                        | none => none
                        | some r9 =>
                          match expectColon r9 with
                          | none => none
                          | some r10 =>
                            let g4 := (skipWs r10).takeWhile isWordChar
                            if g4.isEmpty then none
                            else some (g1, digits, g3, g4)))))

/-- Scan of `re.search` for pattern 3: leftmost starting position wins. -/
def searchP3 (fuel : Nat) (cs : List Char) :
    Option (List Char × List Char × List Char × List Char) :=
  match fuel, cs with
  | _, [] => none
  | 0, _ => none
  | fuel + 1, c :: cs =>
    match matchP3From (c :: cs) with
    | some r => some r
    | none => searchP3 fuel cs

/-- Status snapshot extracted by pattern 3 and stored in the `bot_status`
dictionary of the source (groups 1, 3, 4 are passed through `.strip()`,
group 2 is used as matched). -/
structure BotStatus where
  name : String
  id : String
  expired : String
  status : String
deriving DecidableEq

/-- Model of the pattern-3 `re.search` plus the dictionary built from the
match object. -/
def searchStatus (t : String) : Option BotStatus :=
  (searchP3 t.data.length t.data).map (fun g =>
    { name := pyStrip ⟨g.1⟩
      id := ⟨g.2.1⟩
      expired := pyStrip ⟨g.2.2.1⟩
      status := pyStrip ⟨g.2.2.2⟩ })

/-- One element of the `commands` list built by the parser. -/
structure CommandInfo where
  command : String
  description : String
  usage_example : Option String
  category : String
deriving DecidableEq

/-- Return value of `parse_bot_response_for_commands`: the commands list,
the optional status dictionary (empty dictionary modelled as `none`) and
`total_commands`. -/
structure ParseResult where
  commands : List CommandInfo
  bot_status : Option BotStatus
  total_commands : Nat
deriving DecidableEq

/-- Model of `BotCommandExtractor.parse_bot_response_for_commands`
(`bot_command_extractor.py`, lines 156-200): pattern-1 matches become
"general" entries with stripped description, pattern-2 matches become
"parametric" entries with a usage template, pattern 3 fills the status
dictionary, and `total_commands` is the length of the commands list. -/
def parse_bot_response_for_commands (t : String) : ParseResult :=
  let cs1 := (findall1 t).map (fun m =>
    { command := "/" ++ m.1
      description := pyStrip m.2
      usage_example := (none : Option String)
      category := "general" : CommandInfo })
  let cs2 := (findall2 t).map (fun m =>
    { command := "/" ++ m.1
      description := "Command with parameter: " ++ m.2
      usage_example := some ("/" ++ m.1 ++ " \x7b" ++ m.2 ++ "\x7d")
      category := "parametric" : CommandInfo })
  { commands := cs1 ++ cs2
    bot_status := searchStatus t
    total_commands := (cs1 ++ cs2).length }

/-!
Relay model (`relay_bot.py`, lines 31-43).  `relay_command` sends the user's
command text to the master conversation and registers a fresh handler for
the next message from the master; the handler forwards the master's text to
its own user via the clone bot and then removes itself.  Telethon
dispatches an incoming message to every handler registered at that moment,
so one master message is forwarded to all pending requesters at once.
There is no lock, no queue, no timeout and no access to the quota columns
anywhere in the file.
-/

/-- Observable state of the relay bot: the pending reply handlers (the user
chat id each would forward to, in registration order), the messages sent to
the master, the messages forwarded to users, and the quota counters of the
instance the spec associates with the relay (never touched by the source).
-/
structure RelayState where
  handlers : List Nat
  sentToMaster : List String
  deliveredToUsers : List (Nat × String)
  quota_used : Nat
  quota_limit : Nat
deriving DecidableEq

/-- Model of `relay_command` (`relay_bot.py`, lines 31-43): send the command
to the master, then register a handler for the requesting user.  The
source performs no quota check and no quota update. -/
def relay_command (s : RelayState) (user : Nat) (cmd : String) : RelayState :=
  { s with
    sentToMaster := s.sentToMaster ++ [cmd]
    handlers := s.handlers ++ [user] }

/-- Model of a message from the master arriving: telethon dispatches it to
every registered handler in order; each handler forwards the text to its
user and removes itself (`relay_bot.py`, lines 39-43). -/
def masterReply (s : RelayState) (text : String) : RelayState :=
  { s with
    deliveredToUsers := s.deliveredToUsers ++ s.handlers.map (fun u => (u, text))
    handlers := [] }

/-- Events the relay process reacts to: a user command arriving at the
clone bot, or a message from the master arriving at the listener session.
These are the only transitions in the source. -/
inductive RelayEvent where
  | userCommand (user : Nat) (cmd : String)
  | masterMessage (text : String)
deriving DecidableEq

/-- One event step of the relay process. -/
def relayStep (s : RelayState) : RelayEvent → RelayState
  | .userCommand u c => relay_command s u c
  | .masterMessage t => masterReply s t

/-- Run of the relay process over a sequence of events. -/
def relayRun (s : RelayState) : List RelayEvent → RelayState
  | [] => s
  | e :: es => relayRun (relayStep s e) es

/-- Relay state with no pending handlers, no traffic, and an instance whose
quota is fully available. -/
def emptyRelay : RelayState :=
  { handlers := [], sentToMaster := [], deliveredToUsers := [],
    quota_used := 0, quota_limit := 100 }

/-!
Database model (`bot_command_extractor.py`: `init_database` lines 24-82,
`save_extracted_commands` lines 202-255, `create_bot_instance` lines
575-600, `show_sync_commands_menu` query lines 450-454).  Timestamps are
modelled as natural numbers (seconds).
-/

/-- Row of the `bot_commands` table. -/
structure CommandRow where
  rowid : Nat
  bot_id : String
  command : String
  description : String
  usage_example : String
  category : String
deriving DecidableEq

/-- Row of the `bot_status` table.  Its schema is
`id INTEGER PRIMARY KEY AUTOINCREMENT, bot_id TEXT, ...` — the only
uniqueness constraint is the autoincrement primary key; `bot_id` carries no
UNIQUE constraint. -/
structure StatusRow where
  rowid : Nat
  bot_id : String
  user_id : String
  username : String
  expired_date : String
  status : String
deriving DecidableEq

/-- Row of the `bot_instances` table with the columns the modelled queries
touch.  Column defaults from the schema: `quota_used 0`, `is_active 1`,
`status 'active'`. -/
structure InstanceRow where
  bot_id : String
  bot_name : String
  owner_telegram_id : Nat
  quota_limit : Nat
  quota_used : Nat
  duration_hours : Nat
  created_at : Nat
  expires_at : Nat
  is_active : Bool
  status : String
  last_command_sync : Option Nat
deriving DecidableEq

/-- The three tables plus the autoincrement counters. -/
structure DB where
  bot_instances : List InstanceRow
  bot_commands : List CommandRow
  bot_status : List StatusRow
  next_command_rowid : Nat
  next_status_rowid : Nat
deriving DecidableEq

/-- Freshly initialised database (`init_database`). -/
def emptyDB : DB :=
  { bot_instances := [], bot_commands := [], bot_status := [],
    next_command_rowid := 1, next_status_rowid := 1 }

/-- Rows produced by the INSERT loop of `save_extracted_commands` (lines
212-223), with autoincrement ids starting at `startId`.  A pattern-1 entry
has no `usage_example` key, so `cmd_data.get('usage_example', '')` yields
the empty string. -/
def newCommandRows (botId : String) (startId : Nat) : List CommandInfo → List CommandRow
  | [] => []
  | e :: es =>
    { rowid := startId, bot_id := botId, command := e.command,
      description := e.description, usage_example := e.usage_example.getD "",
      category := e.category } :: newCommandRows botId (startId + 1) es

/-- Model of `save_extracted_commands` (lines 202-255): delete all
`bot_commands` rows of the instance, insert the new entries, run
`INSERT OR REPLACE INTO bot_status` when a status dictionary is present,
and stamp `last_command_sync`.  Because `bot_status` has no uniqueness
constraint other than its autoincrement primary key (which every insert
leaves fresh), the `OR REPLACE` clause never fires and the statement
appends a new row. -/
def save_extracted_commands (botId : String) (d : ParseResult) (now : Nat) (db : DB) : DB :=
  let kept := db.bot_commands.filter (fun r => !(r.bot_id == botId))
  let inserted := newCommandRows botId db.next_command_rowid d.commands
  let statusRows :=
    match d.bot_status with
    | none => db.bot_status
    | some st =>
      db.bot_status ++
        [{ rowid := db.next_status_rowid, bot_id := botId, user_id := st.id,
           username := st.name, expired_date := st.expired, status := st.status }]
  { bot_instances := db.bot_instances.map (fun i =>
      if i.bot_id == botId then { i with last_command_sync := some now } else i)
    bot_commands := kept ++ inserted
    bot_status := statusRows
    next_command_rowid := db.next_command_rowid + d.commands.length
    next_status_rowid :=
      if d.bot_status.isSome then db.next_status_rowid + 1 else db.next_status_rowid }

/-- Model of `create_bot_instance` (lines 575-600): inserts a row with
`expires_at = now + duration_hours` (in seconds here) and the schema
defaults `quota_used = 0`, `is_active = 1`, `status = 'active'`.  The
random `bot_id` is a parameter. -/
def create_bot_instance (ownerId : Nat) (botName : String) (quota durationHours : Nat)
    (botId : String) (now : Nat) (db : DB) : DB :=
  { db with
    bot_instances := db.bot_instances ++
      [{ bot_id := botId, bot_name := botName, owner_telegram_id := ownerId,
         quota_limit := quota, quota_used := 0, duration_hours := durationHours,
         created_at := now, expires_at := now + durationHours * 3600,
         is_active := true, status := "active", last_command_sync := none }] }

/-- Model of the owner-menu query of `show_sync_commands_menu` (lines
450-454): `SELECT bot_id, bot_name, last_command_sync FROM bot_instances
WHERE owner_telegram_id = ? AND is_active = 1`.  The query reads the stored
`is_active` column; nothing in the source compares `expires_at` with the
current time. -/
def show_sync_menu_rows (db : DB) (userId : Nat) : List (String × String × Option Nat) :=
  (db.bot_instances.filter (fun i => i.owner_telegram_id == userId && i.is_active)).map
    (fun i => (i.bot_id, i.bot_name, i.last_command_sync))

/-!
Structured inputs used to state the universally quantified extraction
claims.  A plain-form command line is rendered as `/word` + one space +
inline description, terminated by a newline, exactly the shape the spec's
"plain form" rule describes.
-/

/-- Well-formedness of one plain-form line `(word, description)`: the word
is a nonempty `\w+` run, the description is nonempty, starts with a
non-whitespace character, stays on its line, and contains no brace (a brace
would make the line parametric). -/
def WFplain (q : List Char × List Char) : Prop :=
  q.1 ≠ [] ∧ (∀ c ∈ q.1, isWordChar c = true) ∧ q.2 ≠ [] ∧
    (∀ c ∈ q.2, ¬ c = '\n' ∧ ¬ c = '{') ∧ isSpaceChar q.2.headI = false

instance (q : List Char × List Char) : Decidable (WFplain q) := by
  unfold WFplain; infer_instance

/-- Text consisting of the given plain-form lines, each terminated by a
newline. -/
def renderLines : List (List Char × List Char) → List Char
  | [] => []
  | (w, d) :: rest => '/' :: (w ++ ' ' :: (d ++ '\n' :: renderLines rest))

/-- Two well-formed plain-form lines used as a concrete witness input. -/
def demoLines : List (List Char × List Char) :=
  [("help".data, "Show help".data), ("quota".data, "Daily quota info".data)]

/-- Reply text containing the status block of the source's simulated help
response (`bot_command_extractor.py`, lines 285-293): name line
`ZERIF OSINT`, then the labeled `ID`, `EXPIRED` and `STATUS` lines,
followed by two plain command lines. -/
def statusReplySample : String :=
  "\nZERIF OSINT\nID : 7555202218\nEXPIRED : 29 Jun 2026 22:0:20\nSTATUS : ACTIVE\n\n/premium - Upgrade to premium features\n/disclaimer - Show terms and disclaimer\n"

/-- Parse result carrying only the status snapshot the source's simulated
response yields, used to exercise the status-snapshot store. -/
def sampleStatusOnly : ParseResult :=
  { commands := []
    bot_status := some
      { name := "ZERIF OSINT"
        id := "7555202218"
        expired := "29 Jun 2026 22:0:20"
        status := "ACTIVE" }
    total_commands := 0 }

/-!
Claim theorems.
-/

/-- Helper: a user with a registered handler keeps it, and the quota stays
unchanged, across any event sequence that contains no master message. -/
theorem relayRun_no_reply (s : RelayState) (u : Nat) (evs : List RelayEvent)
    (hu : u ∈ s.handlers) (hnr : ∀ t, RelayEvent.masterMessage t ∉ evs) :
    u ∈ (relayRun s evs).handlers ∧ (relayRun s evs).quota_used = s.quota_used := by
  induction evs generalizing s with
  | nil => exact ⟨hu, rfl⟩
  | cons e es ih =>
    have hnr' : ∀ t, RelayEvent.masterMessage t ∉ es := by
      intro t ht
      exact hnr t (List.mem_cons_of_mem _ ht)
    cases e with
    | userCommand v c =>
      have := ih (relay_command s v c)
        (by simp [relay_command, List.mem_append]; exact Or.inl hu) hnr'
      simpa [relayRun, relayStep, relay_command] using this
    | masterMessage t => exact absurd (List.mem_cons_self _ _) (hnr t)

/-- Claim C1: the spec requires at most one in-flight request per
(façade, master-peer) pair, FIFO queuing, and that each requester receives
the reply correlated to its own submission.  The code registers one global
handler per call and telethon dispatches the first master message to all of
them: after two concurrent relays, two requests are in flight, the first
reply `R1` is forwarded to both requesters (so requester 2 receives the
reply correlated to requester 1's submission), and the second reply `R2`
reaches no one. -/
theorem relay_first_reply_broadcast :
    (relay_command (relay_command emptyRelay 1 ("/help")) 2 ("/quota")).handlers = [1, 2] ∧
    (masterReply (relay_command (relay_command emptyRelay 1 ("/help")) 2 ("/quota"))
        ("R1")).deliveredToUsers = [(1, "R1"), (2, "R1")] ∧
    (masterReply (masterReply (relay_command (relay_command emptyRelay 1 ("/help")) 2
        ("/quota")) ("R1")) ("R2")).deliveredToUsers = [(1, "R1"), (2, "R1")] := by
  decide

/-- Claim C2: the spec requires exactly one quota increment per successful
relay and refusal once `quota_used = quota_limit`.  In the code neither
transition reads or writes the quota, and the outbound send happens
unconditionally — in particular also when `quota_used = quota_limit` — so a
completed relay (send plus delivered reply) leaves `quota_used` unchanged
instead of incrementing it. -/
theorem relay_leaves_quota_unchanged (s : RelayState) (u : Nat) (c t : String) :
    (relay_command s u c).quota_used = s.quota_used ∧
    (masterReply s t).quota_used = s.quota_used ∧
    (relay_command s u c).sentToMaster = s.sentToMaster ++ [c] ∧
    (masterReply (relay_command s u c) t).deliveredToUsers
      = s.deliveredToUsers ++ (s.handlers ++ [u]).map (fun v => (v, t)) := by
  refine ⟨rfl, rfl, rfl, ?_⟩
  simp [relay_command, masterReply]

/-- Claim C3: the spec requires a timed-out relay to deregister its
subscription, return `RelayError::Timeout` and leave the quota unchanged.
The code has no timeout path at all: as long as no master message arrives,
the registered handler stays registered through any further events, and no
error value exists to be returned (the quota part holds because the quota
is never touched). -/
theorem relay_without_reply_keeps_handler (s : RelayState) (u : Nat) (c : String)
    (evs : List RelayEvent) (hnr : ∀ t, RelayEvent.masterMessage t ∉ evs) :
    u ∈ (relayRun (relay_command s u c) evs).handlers ∧
    (relayRun (relay_command s u c) evs).quota_used = s.quota_used := by
  have hu : u ∈ (relay_command s u c).handlers := by
    simp [relay_command]
  have h := relayRun_no_reply (relay_command s u c) u evs hu hnr
  exact ⟨h.1, h.2.trans rfl⟩

/-- Witness for C3: a concrete run in which user 1's relay never gets a
reply while another user command arrives; the handler survives and the
quota is unchanged. -/
theorem relay_without_reply_keeps_handler_witness :
    1 ∈ (relayRun (relay_command emptyRelay 1 ("/help"))
        [RelayEvent.userCommand 2 ("/quota")]).handlers ∧
    (relayRun (relay_command emptyRelay 1 ("/help"))
        [RelayEvent.userCommand 2 ("/quota")]).quota_used = emptyRelay.quota_used := by
  have hnr : ∀ t, RelayEvent.masterMessage t ∉ ([RelayEvent.userCommand 2 ("/quota")] : List RelayEvent) := by
    intro t ht
    simp at ht
  exact relay_without_reply_keeps_handler emptyRelay 1 ("/help") _ hnr

/-- Claim C8: the spec requires at most one status-snapshot row per
instance (replace-on-write).  The `bot_status` table's only uniqueness
constraint is its autoincrement primary key, so `INSERT OR REPLACE` never
replaces: saving a catalog with a status snapshot twice for the same
instance leaves two rows for that instance. -/
theorem status_snapshot_row_duplicated :
    ((save_extracted_commands ("b1") sampleStatusOnly 10 emptyDB).bot_status.filter
        (fun r => r.bot_id == "b1")).length = 1 ∧
    ((save_extracted_commands ("b1") sampleStatusOnly 20
        (save_extracted_commands ("b1") sampleStatusOnly 10 emptyDB)).bot_status.filter
        (fun r => r.bot_id == "b1")).length = 2 := by
  decide

/-- Claim C9: the spec requires the status of an instance to be
re-evaluated from `expires_at` at read time, so an instance created with
duration 0 reads as `expired` with `active` false on the next check.  The
code stores `expires_at = created_at` for duration 0 but the read path
(`show_sync_commands_menu`) filters only on the stored `is_active` column
and never consults `expires_at`: the instance is still listed, with the
stored `is_active = true` and `status = 'active'`. -/
theorem zero_duration_instance_still_active :
    ((create_bot_instance 42 ("demo") 100 0 ("b1") 1000 emptyDB).bot_instances.map
      (fun i => (i.bot_id, i.expires_at, i.created_at, i.is_active, i.status)))
      = [("b1", 1000, 1000, true, "active")] ∧
    show_sync_menu_rows (create_bot_instance 42 ("demo") 100 0 ("b1") 1000 emptyDB) 42
      = [("b1", "demo", none)] := by
  decide

/-- Claim C4: extraction is total — `total_commands` always equals the
number of extracted entries (duplicates counted), and when none of the
three patterns matches, the entry list is empty and the status is absent.
-/
theorem extract_total_and_empty (t : String) :
    (parse_bot_response_for_commands t).total_commands
      = (parse_bot_response_for_commands t).commands.length ∧
    (findall1 t = [] → findall2 t = [] → searchStatus t = none →
      (parse_bot_response_for_commands t).commands = [] ∧
      (parse_bot_response_for_commands t).bot_status = none) := by
  refine ⟨rfl, fun h1 h2 h3 => ?_⟩
  simp [parse_bot_response_for_commands, h1, h2, h3]

/-- Witness for C4 at the empty reply: no pattern matches, and the result
is the empty catalog with absent status. -/
theorem extract_total_and_empty_witness :
    findall1 ("") = [] ∧ findall2 ("") = [] ∧ searchStatus ("") = none ∧
    ((parse_bot_response_for_commands ("")).commands = [] ∧
      (parse_bot_response_for_commands ("")).bot_status = none) := by
  exact ⟨rfl, rfl, rfl, (extract_total_and_empty ("")).2 rfl rfl rfl⟩

set_option maxRecDepth 8000 in
/-- Claim C6: on the reply containing the source's simulated status block,
extraction returns the snapshot with exactly the reported id
`7555202218`, expiry text `29 Jun 2026 22:0:20` and status text `ACTIVE`,
and the name `ZERIF OSINT` taken from the line preceding the labeled
lines. -/
theorem extract_status_block_sample :
    (parse_bot_response_for_commands statusReplySample).bot_status
      = some
          { name := "ZERIF OSINT"
            id := "7555202218"
            expired := "29 Jun 2026 22:0:20"
            status := "ACTIVE" } := by
  decide

/-- Counterexample to claim C10 as stated: the input below contains the
line `/b {x} - desc`, which is exactly a `/word {placeholder}` line with
further descriptive text, yet extraction returns no "general" entry for
`/b` — the preceding bare `/a` line's pattern-1 match crosses the newline
through `\s+` and absorbs the whole second line as its description, so the
only entry for `/b` is the parametric one. -/
theorem plain_match_absorbs_parametric_line :
    ((parse_bot_response_for_commands ("/a\n/b \x7bx\x7d - desc")).commands.map
      (fun e => (e.command, e.description, e.category)))
      = [("/a", "/b \x7bx\x7d - desc", "general"),
         ("/b", "Command with parameter: x", "parametric")] ∧
    ∀ e ∈ (parse_bot_response_for_commands ("/a\n/b \x7bx\x7d - desc")).commands,
      e.command = "/b" → ¬ e.category = "general" := by
  decide

/-- Helper: rows deleted by the `DELETE ... WHERE bot_id = ?` statement do
not reappear among the rows of that instance. -/
theorem filter_after_delete (l : List CommandRow) (b : String) :
    ((l.filter (fun r => !(r.bot_id == b))).filter (fun r => r.bot_id == b)) = [] := by
  induction l with
  | nil => rfl
  | cons r rs ih =>
    by_cases hb : r.bot_id == b
    · simp [List.filter_cons, hb, ih]
    · simp only [Bool.not_eq_true] at hb
      simp [List.filter_cons, hb, ih]

/-- Helper: the rows inserted for an instance, filtered back out of the
table and projected to their content columns, are exactly the inserted
entries. -/
theorem newCommandRows_content (b : String) (es : List CommandInfo) :
    ∀ startId : Nat,
      ((newCommandRows b startId es).filter (fun r => r.bot_id == b)).map
          (fun r => (r.command, r.description, r.usage_example, r.category))
        = es.map (fun e => (e.command, e.description, e.usage_example.getD "", e.category)) := by
  induction es with
  | nil => intro s; rfl
  | cons e es ih =>
    intro s
    simp [newCommandRows, List.filter_cons, ih (s + 1)]

/-- Helper: after one `save_extracted_commands`, the content columns of the
instance's command rows are exactly the saved entries. -/
theorem catalog_after_save (db : DB) (botId : String) (d : ParseResult) (t : Nat) :
    (((save_extracted_commands botId d t db).bot_commands.filter
        (fun r => r.bot_id == botId)).map
        (fun r => (r.command, r.description, r.usage_example, r.category)))
      = d.commands.map (fun e => (e.command, e.description, e.usage_example.getD "", e.category)) := by
  have hbc : (save_extracted_commands botId d t db).bot_commands
      = db.bot_commands.filter (fun r => !(r.bot_id == botId))
        ++ newCommandRows botId db.next_command_rowid d.commands := rfl
  rw [hbc, List.filter_append, filter_after_delete, List.nil_append,
    newCommandRows_content]

/-- Claim C7: `save_extracted_commands` (the spec's `replaceCatalog`) is
idempotent — saving the same entry set twice leaves exactly that entry set
stored for the instance (delete-then-insert semantics), with no duplicated
rows; indeed already one save leaves exactly that set. -/
theorem save_extracted_commands_idempotent (db : DB) (botId : String)
    (d : ParseResult) (t1 t2 : Nat) :
    (((save_extracted_commands botId d t2
          (save_extracted_commands botId d t1 db)).bot_commands.filter
        (fun r => r.bot_id == botId)).map
        (fun r => (r.command, r.description, r.usage_example, r.category)))
      = d.commands.map (fun e => (e.command, e.description, e.usage_example.getD "", e.category)) ∧
    (((save_extracted_commands botId d t1 db).bot_commands.filter
        (fun r => r.bot_id == botId)).map
        (fun r => (r.command, r.description, r.usage_example, r.category)))
      = d.commands.map (fun e => (e.command, e.description, e.usage_example.getD "", e.category)) := by
  exact ⟨catalog_after_save _ _ _ _, catalog_after_save _ _ _ _⟩

/-- Helper: pattern 1 anchored at a well-formed plain line consumes exactly
the line body and captures the word and the description. -/
theorem match1At_render (w d R : List Char) (hw : w ≠ [])
    (hwc : ∀ c ∈ w, isWordChar c = true) (hd : d ≠ [])
    (hdh : isSpaceChar d.headI = false) (hdn : ∀ c ∈ d, ¬ c = '\n') :
    match1At ('/' :: (w ++ ' ' :: (d ++ '\n' :: R))) = some (⟨w⟩, ⟨d⟩, '\n' :: R) := by
  obtain ⟨dh, dt, rfl⟩ : ∃ dh dt, d = dh :: dt := by
    cases d with
    | nil => exact absurd rfl hd
    | cons dh dt => exact ⟨dh, dt, rfl⟩
  have hdh' : isSpaceChar dh = false := by simpa [List.headI] using hdh
  have htw : (w ++ ' ' :: (dh :: dt ++ '\n' :: R)).takeWhile isWordChar = w := by
    rw [List.takeWhile_append_of_pos hwc, List.takeWhile_cons_of_neg (by decide),
      List.append_nil]
  have hdw : (w ++ ' ' :: (dh :: dt ++ '\n' :: R)).dropWhile isWordChar
      = ' ' :: (dh :: dt ++ '\n' :: R) := by
    rw [List.dropWhile_append_of_pos hwc, List.dropWhile_cons_of_neg (by decide)]
  have hsp : (' ' :: (dh :: dt ++ '\n' :: R)).takeWhile isSpaceChar = [' '] := by
    rw [List.takeWhile_cons_of_pos (by decide), List.cons_append,
      List.takeWhile_cons_of_neg (by simp [hdh'])]
  have hr2 : (' ' :: (dh :: dt ++ '\n' :: R)).dropWhile isSpaceChar
      = dh :: (dt ++ '\n' :: R) := by
    rw [List.dropWhile_cons_of_pos (by decide), List.cons_append,
      List.dropWhile_cons_of_neg (by simp [hdh'])]
  have hdnb : ∀ c ∈ dh :: dt, (c != '\n') = true := by
    intro c hc
    simpa using hdn c hc
  have hdesc : (dh :: (dt ++ '\n' :: R)).takeWhile (fun c => c != '\n') = dh :: dt := by
    rw [← List.cons_append, List.takeWhile_append_of_pos hdnb,
      List.takeWhile_cons_of_neg (by decide), List.append_nil]
  have hrest : (dh :: (dt ++ '\n' :: R)).dropWhile (fun c => c != '\n') = '\n' :: R := by
    rw [← List.cons_append, List.dropWhile_append_of_pos hdnb,
      List.dropWhile_cons_of_neg (by decide)]
  have hwe : w.isEmpty = false := by
    cases w with
    | nil => exact absurd rfl hw
    | cons a as => rfl
  simp only [match1At, if_pos rfl, htw, hdw, hsp, hr2, hwe, List.isEmpty_cons,
    Bool.false_eq_true, if_false, hdesc, hrest, if_true]

/-- Helper: a scan step at a newline matches nothing. -/
theorem match1At_newline (R : List Char) : match1At ('\n' :: R) = none := by
  simp [match1At]

/-- Helper: the rendered text is at least twice as long as its line count.
-/
theorem renderLines_length_ge (L : List (List Char × List Char)) :
    2 * L.length ≤ (renderLines L).length := by
  induction L with
  | nil => simp [renderLines]
  | cons q L ih =>
    obtain ⟨w, d⟩ := q
    simp only [renderLines, List.length_cons, List.length_append]
    omega

/-- Helper: on a rendering of well-formed plain lines, the pattern-1 scan
finds exactly one match per line. -/
theorem findall1Fuel_renderLines (L : List (List Char × List Char)) :
    ∀ fuel, 2 * L.length ≤ fuel → (∀ q ∈ L, WFplain q) →
      (findall1Fuel fuel (renderLines L)).length = L.length := by
  induction L with
  | nil =>
    intro fuel _ _
    cases fuel <;> rfl
  | cons q L ih =>
    obtain ⟨w, d⟩ := q
    intro fuel hf hwf
    obtain ⟨hw, hwc, hd, hdc, hdh⟩ := hwf (w, d) (List.mem_cons_self _ _)
    have hdn : ∀ c ∈ d, ¬ c = '\n' := fun c hc => (hdc c hc).1
    cases fuel with
    | zero =>
      simp only [List.length_cons] at hf
      omega
    | succ f =>
      cases f with
      | zero =>
        simp only [List.length_cons] at hf
        omega
      | succ f2 =>
        have hstep : findall1Fuel (f2 + 1 + 1) (renderLines ((w, d) :: L))
            = (⟨w⟩, ⟨d⟩) :: findall1Fuel f2 (renderLines L) := by
          simp only [renderLines, findall1Fuel,
            match1At_render w d (renderLines L) hw hwc hd hdh hdn, match1At_newline]
        rw [hstep, List.length_cons, List.length_cons]
        have hle : 2 * L.length ≤ f2 := by
          simp only [List.length_cons] at hf
          omega
        rw [ih f2 hle (fun q hq => hwf q (List.mem_cons_of_mem _ hq))]

/-- Helper: membership survives `dropWhile`. -/
theorem mem_of_mem_dropWhile {α : Type} (p : α → Bool) (l : List α) (a : α)
    (h : a ∈ l.dropWhile p) : a ∈ l := by
  induction l with
  | nil => simp at h
  | cons x xs ih =>
    cases hx : p x with
    | true =>
      rw [List.dropWhile_cons_of_pos hx] at h
      exact List.mem_cons_of_mem _ (ih h)
    | false =>
      rw [List.dropWhile_cons_of_neg (by simp [hx])] at h
      exact h

/-- Helper: pattern 2 cannot match in a text without an opening brace. -/
theorem match2At_no_brace (cs : List Char) (h : ∀ c ∈ cs, ¬ c = '{') :
    match2At cs = none := by
  cases cs with
  | nil => rfl
  | cons c rest =>
    by_cases hc : c = '/'
    · subst hc
      have hb : ∀ r3, (rest.dropWhile isWordChar).dropWhile isSpaceChar ≠ '{' :: r3 := by
        intro r3 heq
        have hm : ('{' : Char) ∈ rest := by
          apply mem_of_mem_dropWhile isWordChar
          apply mem_of_mem_dropWhile isSpaceChar
          rw [heq]
          exact List.mem_cons_self _ _
        exact h '{' (List.mem_cons_of_mem _ hm) rfl
      simp only [match2At, if_pos rfl]
      rcases hr : (rest.dropWhile isWordChar).dropWhile isSpaceChar with _ | ⟨e, r3⟩
      · simp [hr]
      · have he : ¬ e = '{' := by
          intro hEq
          subst hEq
          exact hb r3 hr
        simp [hr, he]
    · simp [match2At, hc]

/-- Helper: the pattern-2 scan of a text without an opening brace is empty.
-/
theorem findall2Fuel_nil (fuel : Nat) (cs : List Char) (h : ∀ c ∈ cs, ¬ c = '{') :
    findall2Fuel fuel cs = [] := by
  induction fuel generalizing cs with
  | zero => cases cs <;> rfl
  | succ f ih =>
    cases cs with
    | nil => rfl
    | cons c rest =>
      simp only [findall2Fuel, match2At_no_brace _ h]
      exact ih rest (fun c hc => h c (List.mem_cons_of_mem _ hc))

/-- Helper: a rendering of well-formed plain lines contains no opening
brace. -/
theorem renderLines_no_brace (L : List (List Char × List Char))
    (hwf : ∀ q ∈ L, WFplain q) : ∀ c ∈ renderLines L, ¬ c = '{' := by
  induction L with
  | nil => simp [renderLines]
  | cons q L ih =>
    obtain ⟨w, d⟩ := q
    obtain ⟨hw, hwc, hd, hdc, hdh⟩ := hwf (w, d) (List.mem_cons_self _ _)
    intro c hc
    simp only [renderLines, List.mem_cons, List.mem_append] at hc
    rcases hc with rfl | hc
    · decide
    rcases hc with hc | hc
    · intro hEq
      subst hEq
      have := hwc '{' hc
      simp [isWordChar] at this
    rcases hc with rfl | hc
    · decide
    rcases hc with hc | hc
    · exact (hdc c hc).2
    rcases hc with rfl | hc
    · decide
    · exact ih (fun q hq => hwf q (List.mem_cons_of_mem _ hq)) c hc

/-- Claim C5: a reply consisting of well-formed plain-form command lines
and no parametric lines yields exactly one entry per line, each with
category "general".  (The absence of parametric lines is formalised as the
absence of an opening brace in the rendered lines.) -/
theorem extract_plain_lines_all_general (L : List (List Char × List Char))
    (hwf : ∀ q ∈ L, WFplain q) :
    (parse_bot_response_for_commands ⟨renderLines L⟩).commands.length = L.length ∧
    ∀ e ∈ (parse_bot_response_for_commands ⟨renderLines L⟩).commands,
      e.category = "general" := by
  have hno : ∀ c ∈ renderLines L, ¬ c = '{' := renderLines_no_brace L hwf
  have h2 : findall2 ⟨renderLines L⟩ = [] := findall2Fuel_nil _ _ hno
  have h1len : (findall1 ⟨renderLines L⟩).length = L.length :=
    findall1Fuel_renderLines L (renderLines L).length (renderLines_length_ge L) hwf
  constructor
  · simp [parse_bot_response_for_commands, h2, h1len]
  · intro e he
    simp only [parse_bot_response_for_commands, h2, List.map_nil, List.append_nil,
      List.mem_map] at he
    obtain ⟨m, hm, rfl⟩ := he
    rfl

/-- Witness for C5: two concrete well-formed plain-form lines produce
exactly two entries, both "general". -/
theorem extract_plain_lines_all_general_witness :
    (∀ q ∈ demoLines, WFplain q) ∧
    (parse_bot_response_for_commands ⟨renderLines demoLines⟩).commands.length
      = demoLines.length ∧
    ∀ e ∈ (parse_bot_response_for_commands ⟨renderLines demoLines⟩).commands,
      e.category = "general" := by
  have h : ∀ q ∈ demoLines, WFplain q := by decide
  exact ⟨h, (extract_plain_lines_all_general demoLines h).1,
    (extract_plain_lines_all_general demoLines h).2⟩

/-- Helper: `dropWhile` passes over a leading block and stops no later than
a failing element. -/
theorem dropWhile_append_mid {α : Type} (p : α → Bool) (l : List α) (x : α)
    (r : List α) (hx : p x = false) :
    (l ++ x :: r).dropWhile p = l.dropWhile p ++ x :: r := by
  induction l with
  | nil =>
    simp only [List.nil_append, List.dropWhile_nil]
    rw [List.dropWhile_cons_of_neg (by simp [hx])]
  | cons a as ih =>
    cases ha : p a with
    | true =>
      rw [List.cons_append, List.dropWhile_cons_of_pos ha,
        List.dropWhile_cons_of_pos ha, ih]
    | false =>
      rw [List.cons_append, List.dropWhile_cons_of_neg (by simp [ha]),
        List.dropWhile_cons_of_neg (by simp [ha]), List.cons_append]

/-- Helper: stripping the description `{p}ext` keeps the literal
`{p}` prefix — the braces are not whitespace. -/
theorem pyStrip_brace_prefix (p ext : List Char) :
    ∃ suf, (pyStrip ⟨'{' :: (p ++ '}' :: ext)⟩).data = '{' :: (p ++ '}' :: suf) := by
  refine ⟨(ext.reverse.dropWhile isSpaceChar).reverse, ?_⟩
  show stripRight (stripLeft ('{' :: (p ++ '}' :: ext))) = _
  have h1 : stripLeft ('{' :: (p ++ '}' :: ext)) = '{' :: (p ++ '}' :: ext) := by
    unfold stripLeft
    rw [List.dropWhile_cons_of_neg (by decide)]
  rw [h1]
  unfold stripRight
  have h2 : ('{' :: (p ++ '}' :: ext)).reverse
      = ext.reverse ++ '}' :: (p.reverse ++ ['{']) := by
    simp [List.reverse_cons, List.reverse_append, List.append_assoc]
  rw [h2, dropWhile_append_mid _ _ _ _ (by decide)]
  simp [List.reverse_append, List.reverse_cons, List.append_assoc]

/-- Helper: pattern 2 anchored at a line starting `/word {param}` captures
the word and the parameter. -/
theorem match2At_param (w p Z : List Char) (hw : w ≠ [])
    (hwc : ∀ c ∈ w, isWordChar c = true) (hp : p ≠ [])
    (hpb : ∀ c ∈ p, ¬ c = '}') :
    match2At ('/' :: (w ++ ' ' :: '{' :: (p ++ '}' :: Z))) = some (⟨w⟩, ⟨p⟩, Z) := by
  have htw : (w ++ ' ' :: '{' :: (p ++ '}' :: Z)).takeWhile isWordChar = w := by
    rw [List.takeWhile_append_of_pos hwc, List.takeWhile_cons_of_neg (by decide),
      List.append_nil]
  have hdw : (w ++ ' ' :: '{' :: (p ++ '}' :: Z)).dropWhile isWordChar
      = ' ' :: '{' :: (p ++ '}' :: Z) := by
    rw [List.dropWhile_append_of_pos hwc, List.dropWhile_cons_of_neg (by decide)]
  have hsp : (' ' :: '{' :: (p ++ '}' :: Z)).takeWhile isSpaceChar = [' '] := by
    rw [List.takeWhile_cons_of_pos (by decide), List.takeWhile_cons_of_neg (by decide)]
  have hr2 : (' ' :: '{' :: (p ++ '}' :: Z)).dropWhile isSpaceChar
      = '{' :: (p ++ '}' :: Z) := by
    rw [List.dropWhile_cons_of_pos (by decide), List.dropWhile_cons_of_neg (by decide)]
  have hpnb : ∀ c ∈ p, (c != '}') = true := by
    intro c hc
    simpa using hpb c hc
  have hq : (p ++ '}' :: Z).takeWhile (fun c => c != '}') = p := by
    rw [List.takeWhile_append_of_pos hpnb, List.takeWhile_cons_of_neg (by decide),
      List.append_nil]
  have hr4 : (p ++ '}' :: Z).dropWhile (fun c => c != '}') = '}' :: Z := by
    rw [List.dropWhile_append_of_pos hpnb, List.dropWhile_cons_of_neg (by decide)]
  have hwe : w.isEmpty = false := by
    cases w with
    | nil => exact absurd rfl hw
    | cons a as => rfl
  have hpe : p.isEmpty = false := by
    cases p with
    | nil => exact absurd rfl hp
    | cons a as => rfl
  simp only [match2At, if_pos rfl, htw, hdw, hsp, hr2, hwe, hq, hr4, hpe,
    List.isEmpty_cons, Bool.false_eq_true, if_false, if_true]

/-- Helper: a pattern-1 match at the very start of the text appears in the
scan result. -/
theorem head_mem_findall1 (t : String) (a b : String) (r : List Char)
    (hm : match1At t.data = some (a, b, r)) :
    (a, b) ∈ findall1 t := by
  unfold findall1
  cases hd : t.data with
  | nil => rw [hd] at hm; exact absurd hm (by simp [match1At])
  | cons c cs =>
    rw [hd] at hm
    rw [List.length_cons]
    simp only [findall1Fuel, hm]
    exact List.mem_cons_self _ _

/-- Helper: a pattern-2 match at the very start of the text appears in the
scan result. -/
theorem head_mem_findall2 (t : String) (a b : String) (r : List Char)
    (hm : match2At t.data = some (a, b, r)) :
    (a, b) ∈ findall2 t := by
  unfold findall2
  cases hd : t.data with
  | nil => rw [hd] at hm; exact absurd hm (by simp [match2At])
  | cons c cs =>
    rw [hd] at hm
    rw [List.length_cons]
    simp only [findall2Fuel, hm]
    exact List.mem_cons_self _ _

/-- Claim C10 (amended): for an input text that begins with a line of the
form `/word {placeholder}` followed by further descriptive text — so that
no earlier plain-form match can absorb the line into its own description —
extraction returns both an entry with category "general" whose description
begins with the literal `{placeholder}` text and an entry with category
"parametric" whose usage template is `/word {placeholder}`; the parametric
rule itself never suppresses the plain-form match of the line. -/
theorem parametric_line_yields_both_entries (t : String) (w p ext B : List Char)
    (hw : w ≠ []) (hwc : ∀ c ∈ w, isWordChar c = true)
    (hp : p ≠ []) (hpb : ∀ c ∈ p, ¬ c = '}') (hpn : ∀ c ∈ p, ¬ c = '\n')
    (hext : ∀ c ∈ ext, ¬ c = '\n')
    (ht : t.data = '/' :: (w ++ ' ' :: '{' :: (p ++ '}' :: (ext ++ '\n' :: B)))) :
    (∃ e ∈ (parse_bot_response_for_commands t).commands,
      e.category = "general" ∧ e.command = "/" ++ (⟨w⟩ : String) ∧
        ∃ suf, e.description.data = '{' :: (p ++ '}' :: suf)) ∧
    (∃ e ∈ (parse_bot_response_for_commands t).commands,
      e.category = "parametric" ∧ e.command = "/" ++ (⟨w⟩ : String) ∧
        e.usage_example
          = some ("/" ++ (⟨w⟩ : String) ++ " \x7b" ++ (⟨p⟩ : String) ++ "\x7d")) := by
  have hshape : '/' :: (w ++ ' ' :: '{' :: (p ++ '}' :: (ext ++ '\n' :: B)))
      = '/' :: (w ++ ' ' :: (('{' :: (p ++ '}' :: ext)) ++ '\n' :: B)) := by
    simp [List.append_assoc]
  have hD : ∀ c ∈ '{' :: (p ++ '}' :: ext), ¬ c = '\n' := by
    intro c hc
    simp only [List.mem_cons, List.mem_append] at hc
    rcases hc with rfl | hc
    · decide
    rcases hc with hc | hc
    · exact hpn c hc
    rcases hc with rfl | hc
    · decide
    · exact hext c hc
  have hm1 : match1At t.data = some (⟨w⟩, ⟨'{' :: (p ++ '}' :: ext)⟩, '\n' :: B) := by
    rw [ht, hshape]
    exact match1At_render w ('{' :: (p ++ '}' :: ext)) B hw hwc (by simp)
      (by simp [List.headI]; decide) hD
  have hm2 : match2At t.data = some (⟨w⟩, ⟨p⟩, ext ++ '\n' :: B) := by
    rw [ht]
    exact match2At_param w p (ext ++ '\n' :: B) hw hwc hp hpb
  have h1 : ((⟨w⟩ : String), (⟨'{' :: (p ++ '}' :: ext)⟩ : String)) ∈ findall1 t :=
    head_mem_findall1 t _ _ _ hm1
  have h2 : ((⟨w⟩ : String), (⟨p⟩ : String)) ∈ findall2 t :=
    head_mem_findall2 t _ _ _ hm2
  constructor
  · refine ⟨_, List.mem_append_left _ (List.mem_map_of_mem _ h1), rfl, rfl, ?_⟩
    exact pyStrip_brace_prefix p ext
  · exact ⟨_, List.mem_append_right _ (List.mem_map_of_mem _ h2), rfl, rfl, rfl⟩

/-- Witness for the amended C10 at the concrete text `/b {x} - d` plus
newline. -/
theorem parametric_line_yields_both_entries_witness :
    (∃ e ∈ (parse_bot_response_for_commands ("/b \x7bx\x7d - d\n")).commands,
      e.category = "general" ∧ e.command = "/" ++ (⟨['b']⟩ : String) ∧
        ∃ suf, e.description.data = '{' :: (['x'] ++ '}' :: suf)) ∧
    (∃ e ∈ (parse_bot_response_for_commands ("/b \x7bx\x7d - d\n")).commands,
      e.category = "parametric" ∧ e.command = "/" ++ (⟨['b']⟩ : String) ∧
        e.usage_example
          = some ("/" ++ (⟨['b']⟩ : String) ++ " \x7b" ++ (⟨['x']⟩ : String) ++ "\x7d")) :=
  parametric_line_yields_both_entries ("/b \x7bx\x7d - d\n") ['b'] ['x'] (" - d".data) []
    (by decide) (by decide) (by decide) (by decide) (by decide) (by decide) (by decide)
